import Mathlib

/-!
Shallow embedding of the request-handling pipeline of `nestjs-platform-bun`
(`src/express-compat.ts`, `src/fastify-compat.ts`, and the `BunAdapter`
dispatcher).  JS values that can appear as response bodies are modelled by
`JsVal`; JS strings that the code splits on single-character separators are
modelled as `List Char` where that makes proofs tractable, and as `String`
elsewhere.  Errors are modelled by their message string (the adapter only
ever reads `.message` of an error).
-/

set_option maxRecDepth 10000

namespace BunAdapter

/-- A JavaScript runtime value as far as the adapter's body handling needs:
`undefVal`/`vnull` mirror `undefined`/`null`, `buffer` mirrors
`Buffer`/`Uint8Array`, `obj` keeps field order like a JS object literal. -/
inductive JsVal where
  | undefVal
  | vnull
  | vbool (b : Bool)
  | num (n : Int)
  | str (s : String)
  | buffer (bytes : List Nat)
  | obj (fields : List (String × JsVal))
  | arr (elems : List JsVal)

mutual

def JsVal.decEq : (a b : JsVal) → Decidable (a = b)
  | .undefVal, .undefVal => isTrue rfl
  | .vnull, .vnull => isTrue rfl
  | .vbool x, .vbool y =>
      if h : x = y then isTrue (by rw [h]) else isFalse (by simp [h])
  | .num x, .num y =>
      if h : x = y then isTrue (by rw [h]) else isFalse (by simp [h])
  | .str x, .str y =>
      if h : x = y then isTrue (by rw [h]) else isFalse (by simp [h])
  | .buffer x, .buffer y =>
      if h : x = y then isTrue (by rw [h]) else isFalse (by simp [h])
  | .obj f1, .obj f2 =>
      match JsVal.decEqFields f1 f2 with
      | isTrue h => isTrue (by rw [h])
      | isFalse h => isFalse (fun hh => h (JsVal.obj.inj hh))
  | .arr e1, .arr e2 =>
      match JsVal.decEqList e1 e2 with
      | isTrue h => isTrue (by rw [h])
      | isFalse h => isFalse (fun hh => h (JsVal.arr.inj hh))
  | .undefVal, .vnull => isFalse (by simp)
  | .undefVal, .vbool _ => isFalse (by simp)
  | .undefVal, .num _ => isFalse (by simp)
  | .undefVal, .str _ => isFalse (by simp)
  | .undefVal, .buffer _ => isFalse (by simp)
  | .undefVal, .obj _ => isFalse (by simp)
  | .undefVal, .arr _ => isFalse (by simp)
  | .vnull, .undefVal => isFalse (by simp)
  | .vnull, .vbool _ => isFalse (by simp)
  | .vnull, .num _ => isFalse (by simp)
  | .vnull, .str _ => isFalse (by simp)
  | .vnull, .buffer _ => isFalse (by simp)
  | .vnull, .obj _ => isFalse (by simp)
  | .vnull, .arr _ => isFalse (by simp)
  | .vbool _, .undefVal => isFalse (by simp)
  | .vbool _, .vnull => isFalse (by simp)
  | .vbool _, .num _ => isFalse (by simp)
  | .vbool _, .str _ => isFalse (by simp)
  | .vbool _, .buffer _ => isFalse (by simp)
  | .vbool _, .obj _ => isFalse (by simp)
  | .vbool _, .arr _ => isFalse (by simp)
  | .num _, .undefVal => isFalse (by simp)
  | .num _, .vnull => isFalse (by simp)
  | .num _, .vbool _ => isFalse (by simp)
  | .num _, .str _ => isFalse (by simp)
  | .num _, .buffer _ => isFalse (by simp)
  | .num _, .obj _ => isFalse (by simp)
  | .num _, .arr _ => isFalse (by simp)
  | .str _, .undefVal => isFalse (by simp)
  | .str _, .vnull => isFalse (by simp)
  | .str _, .vbool _ => isFalse (by simp)
  | .str _, .num _ => isFalse (by simp)
  | .str _, .buffer _ => isFalse (by simp)
  | .str _, .obj _ => isFalse (by simp)
  | .str _, .arr _ => isFalse (by simp)
  | .buffer _, .undefVal => isFalse (by simp)
  | .buffer _, .vnull => isFalse (by simp)
  | .buffer _, .vbool _ => isFalse (by simp)
  | .buffer _, .num _ => isFalse (by simp)
  | .buffer _, .str _ => isFalse (by simp)
  | .buffer _, .obj _ => isFalse (by simp)
  | .buffer _, .arr _ => isFalse (by simp)
  | .obj _, .undefVal => isFalse (by simp)
  | .obj _, .vnull => isFalse (by simp)
  | .obj _, .vbool _ => isFalse (by simp)
  | .obj _, .num _ => isFalse (by simp)
  | .obj _, .str _ => isFalse (by simp)
  | .obj _, .buffer _ => isFalse (by simp)
  | .obj _, .arr _ => isFalse (by simp)
  | .arr _, .undefVal => isFalse (by simp)
  | .arr _, .vnull => isFalse (by simp)
  | .arr _, .vbool _ => isFalse (by simp)
  | .arr _, .num _ => isFalse (by simp)
  | .arr _, .str _ => isFalse (by simp)
  | .arr _, .buffer _ => isFalse (by simp)
  | .arr _, .obj _ => isFalse (by simp)

def JsVal.decEqFields : (a b : List (String × JsVal)) → Decidable (a = b)
  | [], [] => isTrue rfl
  | [], _ :: _ => isFalse (by simp)
  | _ :: _, [] => isFalse (by simp)
  | (k1, v1) :: r1, (k2, v2) :: r2 =>
      match JsVal.decEq v1 v2, JsVal.decEqFields r1 r2, String.decEq k1 k2 with
      | isTrue hv, isTrue hr, isTrue hk => isTrue (by rw [hv, hr, hk])
      | isFalse hv, _, _ => isFalse (fun hh => by
          simp only [List.cons.injEq, Prod.mk.injEq] at hh
          exact hv hh.1.2)
      | _, isFalse hr, _ => isFalse (fun hh => by
          simp only [List.cons.injEq, Prod.mk.injEq] at hh
          exact hr hh.2)
      | _, _, isFalse hk => isFalse (fun hh => by
          simp only [List.cons.injEq, Prod.mk.injEq] at hh
          exact hk hh.1.1)

def JsVal.decEqList : (a b : List JsVal) → Decidable (a = b)
  | [], [] => isTrue rfl
  | [], _ :: _ => isFalse (by simp)
  | _ :: _, [] => isFalse (by simp)
  | v1 :: r1, v2 :: r2 =>
      match JsVal.decEq v1 v2, JsVal.decEqList r1 r2 with
      | isTrue hv, isTrue hr => isTrue (by rw [hv, hr])
      | isFalse hv, _ => isFalse (fun hh => by
          simp only [List.cons.injEq] at hh
          exact hv hh.1)
      | _, isFalse hr => isFalse (fun hh => by
          simp only [List.cons.injEq] at hh
          exact hr hh.2)

end

instance : DecidableEq JsVal := JsVal.decEq

mutual

/-- `JSON.stringify` restricted to the value shapes the adapter serializes
(string contents are assumed not to need escaping, which holds for every
literal the adapter itself produces). -/
def jsonStringify : JsVal → String
  | .undefVal => "null"
  | .vnull => "null"
  | .vbool b => if b then "true" else "false"
  | .num n => toString n
  | .str s => "\"" ++ s ++ "\""
  | .buffer _ => "\x7b\x7d"
  | .obj fields => "\x7b" ++ String.intercalate "," (jsonStringifyFields fields) ++ "\x7d"
  | .arr elems => "[" ++ String.intercalate "," (jsonStringifyList elems) ++ "]"

/-- Object fields, skipping `undefined` values as `JSON.stringify` does. -/
def jsonStringifyFields : List (String × JsVal) → List String
  | [] => []
  | (_, JsVal.undefVal) :: rest => jsonStringifyFields rest
  | (k, v) :: rest =>
      ("\"" ++ k ++ "\":" ++ jsonStringify v) :: jsonStringifyFields rest

def jsonStringifyList : List JsVal → List String
  | [] => []
  | v :: rest => jsonStringify v :: jsonStringifyList rest

end

/-- `String(x)` coercion for the primitive values `res.send` can receive in
its final `else` branch. -/
def jsToString : JsVal → String
  | .undefVal => "undefined"
  | .vnull => "null"
  | .vbool b => if b then "true" else "false"
  | .num n => toString n
  | .str s => s
  | .buffer _ => "[object]"
  | .obj _ => "[object Object]"
  | .arr _ => "[array]"

/-- Association-list update with JS-object semantics: an existing key keeps
its position and gets the new value, a new key is appended. -/
def assocSet {α : Type} : List (String × α) → String → α → List (String × α)
  | [], k, v => [(k, v)]
  | (k', v') :: rest, k, v =>
      if k' = k then (k', v) :: rest else (k', v') :: assocSet rest k v

/-- Association-list lookup (first binding wins, as JS property access). -/
def alookup {α : Type} (m : List (String × α)) (k : String) : Option α :=
  (m.find? (fun kv => kv.1 == k)).map (·.2)

/-! ### Headers

JS `Headers`: keys are case-insensitive; we store them lowercased.
`set` overwrites, `append` adds another entry, `get` joins all values of a
key with `", "` (and returns `none` when absent). -/

abbrev Hdrs := List (String × String)

def lowerKey (k : String) : String := ⟨k.toList.map Char.toLower⟩

def hset (h : Hdrs) (k v : String) : Hdrs := assocSet h (lowerKey k) v

def happend (h : Hdrs) (k v : String) : Hdrs := h ++ [(lowerKey k, v)]

def hvalues (h : Hdrs) (k : String) : List String :=
  (h.filter (fun kv => kv.1 == lowerKey k)).map (·.2)

def hget (h : Hdrs) (k : String) : Option String :=
  match hvalues h k with
  | [] => none
  | vs => some (String.intercalate ", " vs)

def hhas (h : Hdrs) (k : String) : Bool := (hget h k).isSome

def hdel (h : Hdrs) (k : String) : Hdrs :=
  h.filter (fun kv => kv.1 != lowerKey k)

/-! ### The final immutable response -/

/-- A response body once finalized: a string or raw bytes. -/
inductive BodyOut where
  | str (s : String)
  | bytes (b : List Nat)
deriving DecidableEq

/-- The immutable value handed back to the transport (`new Response(...)`). -/
structure HttpResponse where
  status : Nat
  headers : Hdrs
  body : Option BodyOut
deriving DecidableEq

/-- The `statusCode >= 300 && statusCode < 400` test guarding redirect
finalization. -/
def isRedirectStatus (n : Nat) : Bool := 300 ≤ n && n < 400

/-- `Response.redirect(url, status)`: a fresh response carrying only the
Location header. -/
def responseRedirect (url : String) (status : Nat) : HttpResponse :=
  { status := status, headers := [("location", url)], body := none }

/-- `getStatusText` from `express-compat.ts`. -/
def getStatusText (status : Nat) : String :=
  if status = 100 then "Continue"
  else if status = 101 then "Switching Protocols"
  else if status = 200 then "OK"
  else if status = 201 then "Created"
  else if status = 202 then "Accepted"
  else if status = 204 then "No Content"
  else if status = 301 then "Moved Permanently"
  else if status = 302 then "Found"
  else if status = 304 then "Not Modified"
  else if status = 400 then "Bad Request"
  else if status = 401 then "Unauthorized"
  else if status = 403 then "Forbidden"
  else if status = 404 then "Not Found"
  else if status = 405 then "Method Not Allowed"
  else if status = 409 then "Conflict"
  else if status = 410 then "Gone"
  else if status = 422 then "Unprocessable Entity"
  else if status = 429 then "Too Many Requests"
  else if status = 500 then "Internal Server Error"
  else if status = 501 then "Not Implemented"
  else if status = 502 then "Bad Gateway"
  else if status = 503 then "Service Unavailable"
  else if status = 504 then "Gateway Timeout"
  else "Unknown"

/-! ### Express-compatible response builder (`createExpressResponse`) -/

/-- The mutable state captured by the closure in `createExpressResponse`. -/
structure ExpressRes where
  headers : Hdrs
  statusCode : Nat
  body : JsVal
  ended : Bool
deriving DecidableEq

/-- Fresh state of `createExpressResponse()`. -/
def createExpressResponse : ExpressRes :=
  { headers := [], statusCode := 200, body := .vnull, ended := false }

namespace ExpressRes

/-- `res.status(code)`. -/
def status (code : Nat) (r : ExpressRes) : ExpressRes :=
  { r with statusCode := code }

/-- `res.sendStatus(code)`. -/
def sendStatus (code : Nat) (r : ExpressRes) : ExpressRes :=
  { r with statusCode := code, body := .str (getStatusText code), ended := true }

/-- `res.json(data)`. -/
def json (data : JsVal) (r : ExpressRes) : ExpressRes :=
  { r with headers := hset r.headers "Content-Type" "application/json",
           body := .str (jsonStringify data), ended := true }

/-- `res.send(data)`: type-switches on the runtime shape of the body.
Note `typeof null === "object"` in JS, so `null` takes the JSON branch. -/
def send (data : JsVal) (r : ExpressRes) : ExpressRes :=
  match data with
  | .str s =>
      { r with headers := if hhas r.headers "Content-Type" then r.headers
                          else hset r.headers "Content-Type" "text/html",
               body := .str s, ended := true }
  | .buffer b =>
      { r with headers := if hhas r.headers "Content-Type" then r.headers
                          else hset r.headers "Content-Type" "application/octet-stream",
               body := .buffer b, ended := true }
  | .vnull =>
      { r with headers := hset r.headers "Content-Type" "application/json",
               body := .str (jsonStringify .vnull), ended := true }
  | .obj fields =>
      { r with headers := hset r.headers "Content-Type" "application/json",
               body := .str (jsonStringify (.obj fields)), ended := true }
  | .arr elems =>
      { r with headers := hset r.headers "Content-Type" "application/json",
               body := .str (jsonStringify (.arr elems)), ended := true }
  | other =>
      { r with body := .str (jsToString other), ended := true }

/-- `res.end(data?)`. -/
def endRes (data : Option JsVal) (r : ExpressRes) : ExpressRes :=
  match data with
  | some d => { r with body := d, ended := true }
  | none => { r with ended := true }

/-- `res.set(field, value)` / `res.setHeader`. -/
def setH (k v : String) (r : ExpressRes) : ExpressRes :=
  { r with headers := hset r.headers k v }

/-- `res.removeHeader(field)`. -/
def removeHeader (k : String) (r : ExpressRes) : ExpressRes :=
  { r with headers := hdel r.headers k }

/-- `res.redirect(url)` (status defaults to 302). -/
def redirect1 (url : String) (r : ExpressRes) : ExpressRes :=
  { r with statusCode := 302, headers := hset r.headers "Location" url, ended := true }

/-- `res.redirect(status, url)`. -/
def redirect2 (code : Nat) (url : String) (r : ExpressRes) : ExpressRes :=
  { r with statusCode := code, headers := hset r.headers "Location" url, ended := true }

/-- `res._buildResponse()`. -/
def buildResponse (r : ExpressRes) : HttpResponse :=
  if hhas r.headers "Location" && isRedirectStatus r.statusCode then
    responseRedirect ((hget r.headers "Location").getD "") r.statusCode
  else
    let rb : Option BodyOut :=
      match r.body with
      | .vnull => none
      | .undefVal => none
      | .str s => some (.str s)
      | .buffer b => some (.bytes b)
      | other => some (.str (jsonStringify other))
    { status := r.statusCode, headers := r.headers, body := rb }

end ExpressRes

/-! ### Fastify-compatible reply builder (`createFastifyReply`) -/

/-- The mutable state captured by the closure in `createFastifyReply`
(the optional custom serializer is never installed by the adapter and is
omitted). -/
structure FastifyReply where
  headers : Hdrs
  statusCode : Nat
  body : JsVal
  sent : Bool
deriving DecidableEq

/-- Fresh state of `createFastifyReply()`. -/
def createFastifyReply : FastifyReply :=
  { headers := [], statusCode := 200, body := .vnull, sent := false }

namespace FastifyReply

/-- `reply.code(statusCode)`. -/
def code (c : Nat) (r : FastifyReply) : FastifyReply :=
  { r with statusCode := c }

/-- `reply.header(key, value)`. -/
def header (k v : String) (r : FastifyReply) : FastifyReply :=
  { r with headers := hset r.headers k v }

/-- `reply.send(payload?)`: guarded — a no-op (plus a console warning)
when the reply was already sent. -/
def send (payload : Option JsVal) (r : FastifyReply) : FastifyReply :=
  if r.sent then r
  else
    match payload with
    | some p => { r with body := p, sent := true }
    | none => { r with sent := true }

/-- `reply.redirect(url)`: unconditionally sets Location, status 302 and
the sent flag (no already-sent guard in the source). -/
def redirect1 (url : String) (r : FastifyReply) : FastifyReply :=
  { r with statusCode := 302, headers := hset r.headers "Location" url, sent := true }

/-- `reply.redirect(statusCode, url)`. -/
def redirect2 (c : Nat) (url : String) (r : FastifyReply) : FastifyReply :=
  { r with statusCode := c, headers := hset r.headers "Location" url, sent := true }

/-- `reply.callNotFound()` (also unguarded). -/
def callNotFound (r : FastifyReply) : FastifyReply :=
  { r with statusCode := 404,
           body := .obj [("statusCode", .num 404), ("error", .str "Not Found"),
                         ("message", .str "Route not found")],
           sent := true }

/-- `reply._buildResponse()`. -/
def buildResponse (r : FastifyReply) : HttpResponse :=
  if hhas r.headers "Location" && isRedirectStatus r.statusCode then
    responseRedirect ((hget r.headers "Location").getD "") r.statusCode
  else
    match r.body with
    | .vnull => { status := r.statusCode, headers := r.headers, body := none }
    | .undefVal => { status := r.statusCode, headers := r.headers, body := none }
    | .str s =>
        { status := r.statusCode,
          headers := if hhas r.headers "Content-Type" then r.headers
                     else hset r.headers "Content-Type" "text/plain; charset=utf-8",
          body := some (.str s) }
    | .buffer b =>
        { status := r.statusCode,
          headers := if hhas r.headers "Content-Type" then r.headers
                     else hset r.headers "Content-Type" "application/octet-stream",
          body := some (.bytes b) }
    | other =>
        { status := r.statusCode,
          headers := if hhas r.headers "Content-Type" then r.headers
                     else hset r.headers "Content-Type" "application/json; charset=utf-8",
          body := some (.str (jsonStringify other)) }

end FastifyReply

/-! ### Fastify hooks manager (`FastifyHooksManager`)

A hook is modelled as a pure function of the reply state returning the
updated reply together with the error it reported (by throwing, rejecting,
or passing an error to `done` — the executor treats all three identically).
The request view is not threaded: a concrete hook simply closes over
whatever request data it reads. -/

/-- Error values carry only their message (the adapter reads nothing else). -/
abbrev Err := String

/-- An `onRequest` / `preHandler` / `onResponse` hook. -/
abbrev RHook := FastifyReply → FastifyReply × Option Err

/-- An `onSend` hook: receives the current payload, and may report an error
and/or pass a replacement payload through `done`'s second argument
(`none` = no replacement passed). -/
abbrev OnSendHook := JsVal → FastifyReply → FastifyReply × Option Err × Option JsVal

/-- An `onError` hook: the `Bool` is true exactly when the hook called its
`done` callback with no error argument (a hook that throws, rejects, or is
promise-style and merely resolves yields `false`). -/
abbrev OnErrorHook := Err → FastifyReply → FastifyReply × Bool

/-- `executeOnRequest` / `executePreHandler` (their bodies are identical in
the source): run hooks in order, stop with the error if one errors, stop
successfully if the reply becomes sent. -/
def executePhaseHooks : List RHook → FastifyReply → FastifyReply × Option Err
  | [], reply => (reply, none)
  | h :: rest, reply =>
      let (reply', res) := h reply
      match res with
      | some e => (reply', some e)
      | none => if reply'.sent then (reply', none) else executePhaseHooks rest reply'

/-- `executeOnSend`: threads the payload; a hook's error stops the chain
(reporting the payload as it was before that hook); a replacement payload
passed to `done` becomes the new current payload, otherwise the previous
payload is kept. -/
def executeOnSend : List OnSendHook → FastifyReply → JsVal →
    FastifyReply × Option Err × JsVal
  | [], reply, payload => (reply, none, payload)
  | h :: rest, reply, payload =>
      let (reply', res, replacement) := h payload reply
      match res with
      | some e => (reply', some e, payload)
      | none => executeOnSend rest reply' (replacement.getD payload)

/-- `executeOnError`: a hook handles the error by calling `done` with no
error, or by leaving the reply sent when it returns; otherwise the next
hook is tried; `false` when no hook handled it. -/
def executeOnError : List OnErrorHook → FastifyReply → Err → FastifyReply × Bool
  | [], reply, _ => (reply, false)
  | h :: rest, reply, e =>
      let (reply', clean) := h e reply
      if clean || reply'.sent then (reply', true)
      else executeOnError rest reply' e

/-- `executeOnResponse`: runs every hook, discarding errors. -/
def executeOnResponse : List RHook → FastifyReply → FastifyReply
  | [], reply => reply
  | h :: rest, reply => executeOnResponse rest (h reply).1

/-! ### Express middleware chains (`BunAdapter`) -/

/-- What a middleware did besides mutating the response: threw, called
`next` (possibly with an error), or returned without calling `next`. -/
inductive MWSig where
  | threw (e : Err)
  | nexted (err : Option Err)
  | silent
deriving DecidableEq

/-- An Express middleware as a state transformer on the response. -/
abbrev MW := ExpressRes → ExpressRes × MWSig

/-- An Express error middleware `(err, req, res, next)`. -/
abbrev ErrMW := Err → ExpressRes → ExpressRes × MWSig

structure MiddlewareEntry where
  path : String
  handler : MW

structure ErrorMiddlewareEntry where
  path : String
  handler : ErrMW

/-- Bool prefix test over character lists. -/
def hasPrefixL : List Char → List Char → Bool
  | [], _ => true
  | _ :: _, [] => false
  | p :: ps, c :: cs => p = c && hasPrefixL ps cs

/-- Bool substring test over character lists. -/
def includesL (pat : List Char) : List Char → Bool
  | [] => pat.isEmpty
  | c :: rest => hasPrefixL pat (c :: rest) || includesL pat rest

/-- JS `String.prototype.startsWith`, over the character lists. -/
def strStartsWith (s pre : String) : Bool := hasPrefixL pre.toList s.toList

/-- `pathMatchesMiddleware`: root scope always matches; otherwise the
request path must equal the (slash-normalized) scope or continue it at a
`/` boundary. -/
def pathMatchesMiddleware (requestPath middlewarePath : String) : Bool :=
  if middlewarePath = "/" ∨ middlewarePath = "" then true
  else
    let normalized := if strStartsWith middlewarePath "/" then middlewarePath
                      else "/" ++ middlewarePath
    requestPath = normalized || strStartsWith requestPath (normalized ++ "/")

/-- Collapse runs of `/` (the `.replace(/\/+/g, "/")` in `buildPath`);
the Bool argument records whether the previous character was a `/`. -/
def collapseGo : Bool → List Char → List Char
  | _, [] => []
  | prevSlash, c :: rest =>
      if c = '/' then
        if prevSlash then collapseGo true rest
        else '/' :: collapseGo true rest
      else c :: collapseGo false rest

def collapseSlashesL (s : List Char) : List Char := collapseGo false s

def collapseSlashes (s : String) : String := ⟨collapseSlashesL s.toList⟩

/-- `buildPath`: prepend the global prefix (applied once, at registration /
chain-execution time). -/
def buildPath (globalPrefix path : String) : String :=
  let normalizedPath := if strStartsWith path "/" then path else "/" ++ path
  if globalPrefix ≠ "" then
    let prefixN := if strStartsWith globalPrefix "/" then globalPrefix
                   else "/" ++ globalPrefix
    collapseSlashes (prefixN ++ normalizedPath)
  else normalizedPath

/-- Outcome of `executeMiddlewareChain` (`{error?, completed}` in the
source): `mwError e` = `{error: e, completed: false}`, `completed` =
`{completed: true}`, `fellThrough` = `{completed: false}` with no error. -/
inductive MWChainResult where
  | mwError (e : Err)
  | completed
  | fellThrough
deriving DecidableEq

/-- `executeMiddlewareChain`: skip entries whose scope does not match; run
each matching middleware; a thrown error or an error passed to `next`
stops with that error; an ended response, or a middleware that never calls
`next`, stops the chain as completed. -/
def executeMiddlewareChain (globalPrefix : String) :
    List MiddlewareEntry → ExpressRes → String → ExpressRes × MWChainResult
  | [], res, _ => (res, .fellThrough)
  | entry :: rest, res, pathname =>
      if pathMatchesMiddleware pathname (buildPath globalPrefix entry.path) then
        let (res', sig) := entry.handler res
        match sig with
        | .threw e => (res', .mwError e)
        | .nexted (some e) => (res', .mwError e)
        | .nexted none =>
            if res'.ended then (res', .completed)
            else executeMiddlewareChain globalPrefix rest res' pathname
        | .silent =>
            if res'.ended then (res', .completed) else (res', .completed)
      else executeMiddlewareChain globalPrefix rest res pathname

/-- `executeErrorMiddlewareChain`: skip non-matching scopes; a handler that
throws is treated as not having handled the error (continue with its state
changes kept); an ended response counts as handled; an error passed to
`next` replaces the current error and continues; otherwise (plain `next()`
or no `next` at all) the error counts as handled. -/
def executeErrorMiddlewareChain (globalPrefix : String) :
    List ErrorMiddlewareEntry → Err → ExpressRes → String → ExpressRes × Bool
  | [], _, res, _ => (res, false)
  | entry :: rest, e, res, pathname =>
      if pathMatchesMiddleware pathname (buildPath globalPrefix entry.path) then
        let (res', sig) := entry.handler e res
        match sig with
        | .threw _ => executeErrorMiddlewareChain globalPrefix rest e res' pathname
        | .nexted (some e') =>
            if res'.ended then (res', true)
            else executeErrorMiddlewareChain globalPrefix rest e' res' pathname
        | .nexted none => (res', true)
        | .silent => (res', true)
      else executeErrorMiddlewareChain globalPrefix rest e res pathname

/-! ### Route table (`pathToRegex` and route matching) -/

/-- A compiled pattern token: a literal character, a `:name`
single-segment capture `([^/]+)`, or the trailing-wildcard capture
`(.*)`. -/
inductive Tok where
  | lit (c : Char)
  | param
  | wild
deriving DecidableEq

/-- Characters matched by the `:([a-zA-Z0-9_]+)` parameter scanner. -/
def isParamChar (c : Char) : Bool :=
  c.isAlpha || c.isDigit || c = '_'

/-- One-pass scanner implementing the `:([a-zA-Z0-9_]+) → ([^/]+)`
replacement of `pathToRegex`; `some acc` means we are inside a `:name`
run whose characters so far are `acc`, reversed (a `:` not followed by at
least one name character stays a literal, as in the regex). -/
def scanToksGo : Option (List Char) → List Char → List Tok × List String
  | none, [] => ([], [])
  | some acc, [] =>
      if acc.isEmpty then ([.lit ':'], []) else ([.param], [(⟨acc.reverse⟩ : String)])
  | none, c :: rest =>
      if c = ':' then scanToksGo (some []) rest
      else
        let (ts, ns) := scanToksGo none rest
        (.lit c :: ts, ns)
  | some acc, c :: rest =>
      if isParamChar c then scanToksGo (some (c :: acc)) rest
      else
        let (ts, ns) := scanToksGo (if c = ':' then some [] else none) rest
        let (ts, ns) := if c = ':' then (ts, ns) else (.lit c :: ts, ns)
        if acc.isEmpty then (.lit ':' :: ts, ns)
        else (.param :: ts, (⟨acc.reverse⟩ : String) :: ns)

def scanToks (s : List Char) : List Tok × List String := scanToksGo none s

/-- `pathToRegex`: normalize the leading `/`, rewrite a trailing `*` to a
greedy capture, and compile `:name` captures. -/
def pathToRegex (path : String) : List Tok × List String :=
  let normalized := if strStartsWith path "/" then path else "/" ++ path
  let chars := normalized.toList
  if chars.getLast? = some '*' then
    let (ts, ns) := scanToks (chars.dropLast)
    (ts ++ [.wild], ns)
  else scanToks chars

/-- All splits `(pre, suf)` with `pre ++ suf = s`, shortest prefix first. -/
def splitsAsc : List Char → List (List Char × List Char)
  | [] => [([], [])]
  | c :: cs => ([], c :: cs) :: (splitsAsc cs).map (fun ps => (c :: ps.1, ps.2))

/-- Splits longest-prefix-first: the order in which a greedy regex
quantifier explores them when backtracking. -/
def splitsDesc (s : List Char) : List (List Char × List Char) :=
  (splitsAsc s).reverse

/-- Anchored matching of a compiled pattern against a path, with regex
backtracking semantics: `param` is the greedy `([^/]+)` (nonempty, no
`/`), `wild` is the greedy `(.*)`.  Returns the list of captured groups in
group order, or `none` when the pattern does not match the full path. -/
def tokMatch : List Tok → List Char → Option (List (List Char))
  | [], s => if s.isEmpty then some [] else none
  | .lit _ :: _, [] => none
  | .lit c :: ts, x :: xs => if x = c then tokMatch ts xs else none
  | .param :: ts, s =>
      (splitsDesc s).findSome? (fun ps =>
        if ps.1 ≠ [] ∧ ps.1.all (· ≠ '/') then
          (tokMatch ts ps.2).map (ps.1 :: ·)
        else none)
  | .wild :: ts, s =>
      (splitsDesc s).findSome? (fun ps => (tokMatch ts ps.2).map (ps.1 :: ·))

/-- A registered route: method (uppercased), compiled pattern, parameter
names in declaration order, and the handler (see the dispatcher below). -/
structure Route (H : Type) where
  method : String
  toks : List Tok
  paramNames : List String
  handler : H

/-- `params[name] = match[index + 1]`: bind parameter names to captures by
position (the wildcard capture, when present, sits after all named ones). -/
def bindParams (names : List String) (caps : List (List Char)) :
    List (String × String) :=
  (names.zip caps).foldl (fun acc nc => assocSet acc nc.1 (⟨nc.2⟩ : String)) []

/-- Whether a single route entry matches, returning its bound parameters. -/
def routeMatch {H : Type} (method pathname : String) (r : Route H) :
    Option (List (String × String)) :=
  if r.method ≠ method ∧ r.method ≠ "ALL" then none
  else (tokMatch r.toks pathname.toList).map (bindParams r.paramNames)

/-- The route-matching loop at the top of `handleRequest`: first entry, in
registration order, whose method and compiled pattern match. -/
def findRoute {H : Type} : List (Route H) → String → String →
    Option (Route H × List (String × String))
  | [], _, _ => none
  | r :: rest, method, pathname =>
      match routeMatch method pathname r with
      | some params => some (r, params)
      | none => findRoute rest method pathname

/-! ### Single-character splitting (JS `String.split` with a one-character
separator), over `List Char` -/

def splitOnChar (sep : Char) (s : List Char) : List (List Char) :=
  s.foldr
    (fun c acc =>
      match acc with
      | cur :: rest => if c = sep then [] :: cur :: rest else (c :: cur) :: rest
      | [] => [[c]])
    [[]]

/-- `Array.prototype.join(sep)` over `List Char` pieces. -/
def joinWithChar (sep : Char) : List (List Char) → List Char
  | [] => []
  | [x] => x
  | x :: rest => x ++ sep :: joinWithChar sep rest

/-- JS `String.prototype.trim`. -/
def trimChars (s : List Char) : List Char :=
  ((s.dropWhile Char.isWhitespace).reverse.dropWhile Char.isWhitespace).reverse

/-! ### Query-string mapping (`createExpressRequest` / `createFastifyRequest`)

Both request views build their `query` object the same way:
`url.searchParams.forEach((value, key) => { query[key] = value; })`.
`URLSearchParams` iterates the pairs of the raw query string left to
right; assigning into a JS object makes a repeated key keep its first
position but take each later value. Percent-decoding is not modelled (no
claim depends on it). -/

/-- The pair list of `URLSearchParams(qs)` in iteration order: split on
`&`, drop empty chunks, split each chunk at the first `=`. -/
def searchParamsPairs (qs : List Char) : List (List Char × List Char) :=
  (splitOnChar '&' qs).filterMap (fun part =>
    if part.isEmpty then none
    else
      match splitOnChar '=' part with
      | [] => none
      | k :: rest => some (k, joinWithChar '=' rest))

/-- The `query` record both request views expose. -/
def queryFromSearchParams (qs : List Char) : List (String × String) :=
  (searchParamsPairs qs).foldl
    (fun acc kv => assocSet acc (⟨kv.1⟩ : String) (⟨kv.2⟩ : String)) []

/-! ### Cookie parsing (`createExpressRequest`) -/

/-- Cookie parsing: split the header on `;`, trim each pair, split the
pair on `=`, use the first piece as the name (skipping empty names) and
rejoin the remainder with `=` as the value. -/
def parseCookies (header : List Char) : List (String × String) :=
  (splitOnChar ';' header).foldl
    (fun acc cookie =>
      match splitOnChar '=' (trimChars cookie) with
      | [] => acc
      | name :: rest =>
          if name.isEmpty then acc
          else assocSet acc (⟨name⟩ : String) (⟨joinWithChar '=' rest⟩ : String))
    []

/-! ### Body parsing (`BunAdapter.parseRequestBody`) -/

/-- Substring containment, JS `String.prototype.includes`. -/
def strIncludes (s pat : String) : Bool :=
  includesL pat.toList s.toList

/-- The raw request's fallible body readers: `none` models the reader
throwing/rejecting (e.g. malformed JSON for `.json()`). -/
structure RawBody where
  contentType : String
  jsonResult : Option JsVal
  textResult : Option String
  formDataResult : Option (List (String × JsVal))

/-- Parse a form-urlencoded text into the plain record the source builds
from `URLSearchParams.forEach`. -/
def urlEncodedRecord (text : String) : JsVal :=
  .obj ((queryFromSearchParams text.toList).map (fun kv => (kv.1, JsVal.str kv.2)))

/-- `parseRequestBody`: dispatch purely on the Content-Type header;
every reader failure is swallowed to `undefined`; any content type not in
the four recognized families also yields `undefined`. -/
def parseRequestBody (raw : RawBody) : JsVal :=
  if strIncludes raw.contentType "application/json" then
    (raw.jsonResult.getD .undefVal)
  else if strIncludes raw.contentType "application/x-www-form-urlencoded" then
    match raw.textResult with
    | some text => urlEncodedRecord text
    | none => .undefVal
  else if strIncludes raw.contentType "multipart/form-data" then
    match raw.formDataResult with
    | some fields => .obj (fields.foldl (fun acc kv => assocSet acc kv.1 kv.2) [])
    | none => .undefVal
  else if strIncludes raw.contentType "text/" then
    match raw.textResult with
    | some text => .str text
    | none => .undefVal
  else .undefVal

/-! ### Plugin registry and startup (`FastifyPluginRegistry`,
`initializeFastifyPlugins`, `listen`)

A plugin's initialization is modelled by the sequence of registrations it
performs against the instance, or a startup error. -/

inductive HookPhase where
  | onRequestH
  | preHandlerH
  | onSendH
  | onErrorH
  | onResponseH
deriving DecidableEq

/-- One registration a plugin performs during initialization (hooks are
identified by an opaque id so that "registered exactly once" is
observable). -/
inductive PluginEffect where
  | addHookE (phase : HookPhase) (hookId : Nat)
  | decorateE (name : String) (v : JsVal)
  | decorateRequestE (name : String) (v : JsVal)
  | decorateReplyE (name : String) (v : JsVal)
deriving DecidableEq

/-- A registered plugin: its id, the registrations its initialization
function performs, and whether it errors (which aborts startup). -/
structure Plugin where
  pid : Nat
  effects : List PluginEffect
  fails : Option Err
deriving DecidableEq

/-- The process-wide registry state that plugin initialization mutates,
plus a run log recording each plugin id as its initialization function is
invoked. -/
structure RegistryState where
  plugins : List Plugin
  hooks : List (HookPhase × Nat)
  decorators : List (String × JsVal)
  requestDecorators : List (String × JsVal)
  replyDecorators : List (String × JsVal)
  fastifyInitialized : Bool
  runLog : List Nat
deriving DecidableEq

def applyEffect (s : RegistryState) : PluginEffect → RegistryState
  | .addHookE phase hid => { s with hooks := s.hooks ++ [(phase, hid)] }
  | .decorateE n v => { s with decorators := assocSet s.decorators n v }
  | .decorateRequestE n v =>
      { s with requestDecorators := assocSet s.requestDecorators n v }
  | .decorateReplyE n v =>
      { s with replyDecorators := assocSet s.replyDecorators n v }

/-- `initializePlugins`: await each plugin sequentially; a plugin error
propagates (registrations already performed are kept — the source mutates
the adapter in place). -/
def initializePlugins : List Plugin → RegistryState → Except Err RegistryState
  | [], s => .ok s
  | p :: rest, s =>
      let s' := { (p.effects.foldl applyEffect s) with runLog := s.runLog ++ [p.pid] }
      match p.fails with
      | some e => .error e
      | none => initializePlugins rest s'

/-- `initializeFastifyPlugins`: guarded by the `fastifyInitialized` flag,
which is set only after every plugin initialized successfully. -/
def initializeFastifyPlugins (s : RegistryState) : Except Err RegistryState :=
  if s.fastifyInitialized then .ok s
  else
    match initializePlugins s.plugins s with
    | .error e => .error e
    | .ok s' => .ok { s' with fastifyInitialized := true }

/-- `listen`: initializes plugins before starting the server (the
socket-level part is outside the model). -/
def listen (s : RegistryState) : Except Err RegistryState :=
  initializeFastifyPlugins s

/-! ### The request dispatcher (`BunAdapter.handleRequest`)

The dispatcher is embedded as a pure function from the adapter
configuration and the request's method/path to the final response,
together with a log of the phases that actually executed (the log is pure
instrumentation: it mirrors which source calls run, and the response value
never depends on it). -/

/-- The observable phases of one dispatch. -/
inductive Phase where
  | onRequestP
  | middlewareP
  | preHandlerP
  | handlerP
  | onSendP
  | onErrorP
  | errMwP
  | errHandlerP
  | notFoundP
  | onResponseP
deriving DecidableEq

/-- What a route handler returned: `undefined`, some value, or a pre-built
raw `Response`. -/
inductive HandlerRet where
  | hundef
  | value (v : JsVal)
  | raw (resp : HttpResponse)

/-- A route handler either throws/rejects, or completes, possibly having
called `next` with an error, and returns a value. -/
inductive HandlerOut where
  | threw (e : Err)
  | ok (nextErr : Option Err) (ret : HandlerRet)

/-- A route handler as a state transformer on the Express response (like
hooks, a concrete handler closes over the request data it reads). -/
abbrev Handler := ExpressRes → ExpressRes × HandlerOut

/-- The registration state of a `BunAdapter` at dispatch time. -/
structure Adapter where
  globalPrefix : String
  routes : List (Route Handler)
  middlewares : List MiddlewareEntry
  errorMiddlewares : List ErrorMiddlewareEntry
  onRequestHooks : List RHook
  preHandlerHooks : List RHook
  onSendHooks : List OnSendHook
  onErrorHooks : List OnErrorHook
  onResponseHooks : List RHook
  errorHandler : Option (Err → ExpressRes → ExpressRes)
  notFoundHandler : Option Handler

/-- The result of one dispatch: the response handed to the transport and
the phases that ran, in order. -/
structure DispatchOut where
  response : HttpResponse
  log : List Phase
deriving DecidableEq

/-- `{statusCode: 500, message: <msg>}` — the Express-side default error
body. -/
def defaultErrorBody (msg : String) : JsVal :=
  .obj [("statusCode", .num 500), ("message", .str msg)]

/-- `{statusCode: 500, error: "Internal Server Error", message: <msg>}` —
the Fastify-side default used for `onRequest`/`preHandler` hook errors. -/
def fastifyDefaultErrorBody (msg : String) : JsVal :=
  .obj [("statusCode", .num 500), ("error", .str "Internal Server Error"),
        ("message", .str msg)]

/-- `{statusCode: 404, message: "Not Found"}`. -/
def notFoundBody : JsVal :=
  .obj [("statusCode", .num 404), ("message", .str "Not Found")]

/-- The recovery ladder for route-handler errors (both the thrown-error
`catch` block and the `next(error)` branch run this same code): Express
error middleware, then Fastify `onError` hooks, then the user error
handler, then the default JSON 500. -/
def handlerErrorRecovery (a : Adapter) (pathname : String) (e : Err)
    (res : ExpressRes) (reply : FastifyReply) : DispatchOut :=
  match executeErrorMiddlewareChain a.globalPrefix a.errorMiddlewares e res pathname with
  | (res1, true) => ⟨res1.buildResponse, [.errMwP]⟩
  | (res1, false) =>
      match executeOnError a.onErrorHooks reply e with
      | (reply1, true) => ⟨reply1.buildResponse, [.errMwP, .onErrorP]⟩
      | (_, false) =>
          match a.errorHandler with
          | some h => ⟨(h e res1).buildResponse, [.errMwP, .onErrorP, .errHandlerP]⟩
          | none =>
              ⟨((res1.status 500).json (defaultErrorBody e)).buildResponse,
               [.errMwP, .onErrorP]⟩

/-- Exit taken when an `onRequest` or `preHandler` hook errors: only the
Fastify `onError` hooks are consulted, then a Fastify-side default 500. -/
def hookErrorExit (a : Adapter) (e : Err) (reply : FastifyReply)
    (logBase : List Phase) : DispatchOut :=
  match executeOnError a.onErrorHooks reply e with
  | (reply1, true) => ⟨reply1.buildResponse, logBase ++ [.onErrorP]⟩
  | (reply1, false) =>
      ⟨((reply1.code 500).send (some (fastifyDefaultErrorBody e))).buildResponse,
       logBase ++ [.onErrorP]⟩

/-- The tail of the matched-handler branch after the handler completed
without error: use the returned value, run `onSend`, finalize, run
`onResponse`. -/
def handlerSuccessTail (a : Adapter) (res : ExpressRes)
    (reply : FastifyReply) (ret : HandlerRet) : DispatchOut :=
  let logBase : List Phase := [.onRequestP, .middlewareP, .preHandlerP, .handlerP]
  match ret, res.ended with
  | .raw resp, false =>
      -- a pre-built raw response bypasses finalization, after `onResponse`
      let _ := executeOnResponse a.onResponseHooks reply
      ⟨resp, logBase ++ [.onResponseP]⟩
  | ret, _ =>
      let res1 :=
        match ret, res.ended with
        | .value v, false =>
            if v = JsVal.undefVal ∨ v = JsVal.vnull then res else res.send v
        | _, _ => res
      match executeOnSend a.onSendHooks reply res1.body with
      | (reply1, some e, _) =>
          (match executeOnError a.onErrorHooks reply1 e with
          | (reply2, true) =>
              ⟨reply2.buildResponse, logBase ++ [.onSendP, .onErrorP]⟩
          | (_, false) =>
              let res2 := (res1.status 500).json (defaultErrorBody e)
              let _ := executeOnResponse a.onResponseHooks reply1
              ⟨res2.buildResponse, logBase ++ [.onSendP, .onErrorP, .onResponseP]⟩)
      | (reply1, none, _) =>
          let resp := res1.buildResponse
          let _ := executeOnResponse a.onResponseHooks reply1
          ⟨resp, logBase ++ [.onSendP, .onResponseP]⟩

/-- `BunAdapter.handleRequest`, lines 351–581 of the dispatcher source. -/
def handleRequest (a : Adapter) (method pathname : String) : DispatchOut :=
  let matched := findRoute a.routes method pathname
  let res0 := createExpressResponse
  let reply0 := createFastifyReply
  match executePhaseHooks a.onRequestHooks reply0 with
  | (reply1, some e) => hookErrorExit a e reply1 [.onRequestP]
  | (reply1, none) =>
  if reply1.sent then ⟨reply1.buildResponse, [.onRequestP]⟩ else
  match executeMiddlewareChain a.globalPrefix a.middlewares res0 pathname with
  | (res1, .mwError e) =>
      (match executeErrorMiddlewareChain a.globalPrefix a.errorMiddlewares e res1 pathname with
      | (res2, true) =>
          ⟨res2.buildResponse, [.onRequestP, .middlewareP, .errMwP]⟩
      | (res2, false) =>
          match a.errorHandler with
          | some h =>
              ⟨(h e res2).buildResponse,
               [.onRequestP, .middlewareP, .errMwP, .errHandlerP]⟩
          | none =>
              ⟨((res2.status 500).json (defaultErrorBody e)).buildResponse,
               [.onRequestP, .middlewareP, .errMwP]⟩)
  | (res1, .completed) => ⟨res1.buildResponse, [.onRequestP, .middlewareP]⟩
  | (res1, .fellThrough) =>
  if res1.ended then ⟨res1.buildResponse, [.onRequestP, .middlewareP]⟩ else
  match executePhaseHooks a.preHandlerHooks reply1 with
  | (reply2, some e) =>
      hookErrorExit a e reply2 [.onRequestP, .middlewareP, .preHandlerP]
  | (reply2, none) =>
  if reply2.sent then
    ⟨reply2.buildResponse, [.onRequestP, .middlewareP, .preHandlerP]⟩
  else
  match matched with
  | some (route, _) =>
      (match route.handler res1 with
      | (res2, .threw e) =>
          let t := handlerErrorRecovery a pathname e res2 reply2
          ⟨t.response, [.onRequestP, .middlewareP, .preHandlerP, .handlerP] ++ t.log⟩
      | (res2, .ok (some e) _) =>
          let t := handlerErrorRecovery a pathname e res2 reply2
          ⟨t.response, [.onRequestP, .middlewareP, .preHandlerP, .handlerP] ++ t.log⟩
      | (res2, .ok none ret) => handlerSuccessTail a res2 reply2 ret)
  | none =>
      match a.notFoundHandler with
      | some h =>
          (match h res1 with
          | (res2, .threw e) =>
              -- escapes the dispatcher body; caught by the top-level catch
              (match a.errorHandler with
              | some eh =>
                  ⟨(eh e res2).buildResponse,
                   [.onRequestP, .middlewareP, .preHandlerP, .notFoundP, .errHandlerP]⟩
              | none =>
                  ⟨{ status := 500,
                     headers := [("content-type", "application/json")],
                     body := some (.str (jsonStringify (defaultErrorBody e))) },
                   [.onRequestP, .middlewareP, .preHandlerP, .notFoundP]⟩)
          | (res2, .ok _ _) =>
              ⟨res2.buildResponse,
               [.onRequestP, .middlewareP, .preHandlerP, .notFoundP]⟩)
      | none =>
          ⟨{ status := 404,
             headers := [("content-type", "application/json")],
             body := some (.str (jsonStringify notFoundBody)) },
           [.onRequestP, .middlewareP, .preHandlerP]⟩

/-! ## Generic lemmas about the embedded primitives -/

theorem alookup_assocSet {α : Type} (m : List (String × α)) (k' k : String) (v : α) :
    alookup (assocSet m k' v) k = if k' == k then some v else alookup m k := by
  induction m with
  | nil =>
      simp only [assocSet, alookup, List.find?]
      by_cases hk : k' = k
      · simp [hk]
      · have hb : (k' == k) = false := by simp [hk]
        simp [hb, hk]
  | cons kv rest ih =>
      obtain ⟨k0, v0⟩ := kv
      by_cases h0 : k0 = k'
      · subst h0
        simp only [assocSet, if_pos rfl, alookup, List.find?]
        by_cases hk : (k0 == k)
        · simp [hk]
        · simp only [hk]
          simp only [alookup] at *
          simp [List.find?, hk]
      · simp only [assocSet, if_neg h0, alookup, List.find?]
        by_cases hk : (k0 == k)
        · have : ¬(k' == k) := by
            intro hc
            exact h0 (by
              have h1 : k0 = k := by simpa using hk
              have h2 : k' = k := by simpa using hc
              rw [h1, h2])
          simp only [hk, this]
          simp
        · simp only [hk]
          simpa [alookup, List.find?, hk] using ih

theorem alookup_foldl_assocSet {α : Type} (ps : List (String × α))
    (init : List (String × α)) (k : String) :
    alookup (ps.foldl (fun acc kv => assocSet acc kv.1 kv.2) init) k =
      match ps.reverse.find? (fun kv => kv.1 == k) with
      | some kv => some kv.2
      | none => alookup init k := by
  induction ps generalizing init with
  | nil => simp
  | cons kv rest ih =>
      simp only [List.foldl_cons, List.reverse_cons]
      rw [ih]
      rcases hfind : rest.reverse.find? (fun kv => kv.1 == k) with _ | found
      · rw [List.find?_append, hfind]
        simp only [Option.none_orElse]
        rw [alookup_assocSet]
        by_cases hk : (kv.1 == k)
        · simp [List.find?, hk]
        · simp [List.find?, hk]
      · rw [List.find?_append, hfind]
        simp

theorem splitOnChar_ne_nil (sep : Char) (s : List Char) :
    splitOnChar sep s ≠ [] := by
  induction s with
  | nil => simp [splitOnChar]
  | cons c cs ih =>
      simp only [splitOnChar, List.foldr_cons] at *
      rcases h : (cs.foldr _ [[]] : List (List Char)) with _ | ⟨cur, rest⟩
      · exact absurd h ih
      · by_cases hc : c = sep <;> simp [hc]

theorem splitOnChar_cons_sep (sep : Char) (ys : List Char) :
    splitOnChar sep (sep :: ys) = [] :: splitOnChar sep ys := by
  simp only [splitOnChar, List.foldr_cons]
  rcases h : (ys.foldr _ [[]] : List (List Char)) with _ | ⟨cur, rest⟩
  · exact absurd h (splitOnChar_ne_nil sep ys)
  · simp

theorem splitOnChar_cons_ne (sep c : Char) (ys : List Char) (hc : c ≠ sep) :
    splitOnChar sep (c :: ys) =
      ((splitOnChar sep ys).headI.cons c) :: (splitOnChar sep ys).tail := by
  simp only [splitOnChar, List.foldr_cons]
  rcases h : (ys.foldr _ [[]] : List (List Char)) with _ | ⟨cur, rest⟩
  · exact absurd h (splitOnChar_ne_nil sep ys)
  · simp [hc]

theorem splitOnChar_append_of_not_mem (sep : Char) (xs ys : List Char)
    (hx : sep ∉ xs) :
    splitOnChar sep (xs ++ ys) =
      (xs ++ (splitOnChar sep ys).headI) :: (splitOnChar sep ys).tail := by
  induction xs with
  | nil =>
      simp only [List.nil_append]
      rcases h : splitOnChar sep ys with _ | ⟨cur, rest⟩
      · exact absurd h (splitOnChar_ne_nil sep ys)
      · simp
  | cons x xs ih =>
      have hx1 : x ≠ sep := by
        intro hc; exact hx (by simp [hc])
      have hx2 : sep ∉ xs := by
        intro hc; exact hx (by simp [hc])
      rw [List.cons_append, splitOnChar_cons_ne sep x (xs ++ ys) hx1, ih hx2]
      simp

theorem splitOnChar_of_not_mem (sep : Char) (s : List Char) (h : sep ∉ s) :
    splitOnChar sep s = [s] := by
  have := splitOnChar_append_of_not_mem sep s [] h
  simpa [splitOnChar] using this

theorem joinWithChar_splitOnChar (sep : Char) (s : List Char) :
    joinWithChar sep (splitOnChar sep s) = s := by
  induction s with
  | nil => simp [splitOnChar, joinWithChar]
  | cons c cs ih =>
      by_cases hc : c = sep
      · subst hc
        rw [splitOnChar_cons_sep]
        rcases h : splitOnChar c cs with _ | ⟨cur, rest⟩
        · exact absurd h (splitOnChar_ne_nil c cs)
        · rw [h] at ih
          simpa [joinWithChar] using ih
      · rw [splitOnChar_cons_ne sep c cs hc]
        rcases h : splitOnChar sep cs with _ | ⟨cur, rest⟩
        · exact absurd h (splitOnChar_ne_nil sep cs)
        · rw [h] at ih
          rcases rest with _ | ⟨r, rs⟩
          · simpa [joinWithChar] using congrArg (c :: ·) ih
          · simp only [List.headI, List.tail]
            simp only [joinWithChar] at ih ⊢
            rw [← ih]
            simp

/-! ## The claims -/

/-- Shape test used by counterexamples about body kinds. -/
def isBufferVal : JsVal → Bool
  | .buffer _ => true
  | _ => false

/-- C1 (amended): on the Fastify reply, `send` after the sent flag is true
is a silent no-op: status code, headers, body and flag are all left
unchanged, so the finalized response is what it would have been without
the call. -/
theorem c1_fastify_send_noop_after_sent (r : FastifyReply) (p : Option JsVal)
    (h : r.sent = true) : r.send p = r := by
  simp [FastifyReply.send, h]

theorem c1_witness :
    ((createFastifyReply.send (some (.str "first"))).sent = true) ∧
    ((createFastifyReply.send (some (.str "first"))).send (some (.str "second")) =
      createFastifyReply.send (some (.str "first"))) :=
  ⟨by decide,
   c1_fastify_send_noop_after_sent (createFastifyReply.send (some (.str "first")))
     (some (.str "second")) (by decide)⟩

/-- C1 counterexample: on the Express response the terminal calls carry no
ended-flag guard — after `res.json({a:1})` has ended the response, a later
`res.send("b")` changes the finalized body, so the claimed no-op fails on
the Express model. -/
theorem c1_counterexample :
    ((createExpressResponse.json (.obj [("a", .num 1)])).ended = true) ∧
    (((createExpressResponse.json (.obj [("a", .num 1)])).send (.str "b")).buildResponse ≠
      (createExpressResponse.json (.obj [("a", .num 1)])).buildResponse) := by
  constructor
  · rfl
  · decide

/-- C4 counterexample: for `?a=1&a=2` the shared query-building code of
both request views binds `a` to `"2"` — the value of the LAST occurrence,
not the first as claimed. -/
theorem c4_counterexample :
    queryFromSearchParams ("a=1&a=2".toList) = [("a", "2")] ∧
    alookup (queryFromSearchParams ("a=1&a=2".toList)) "a" ≠ some "1" := by
  constructor
  · rfl
  · decide

/-- C4 (amended): for every raw query string and key, the query mapping on
both request views binds the key to the value of its LAST occurrence in
the query string (later occurrences overwrite earlier ones, keys keep
first-occurrence order). -/
theorem c4_last_occurrence_wins (qs : List Char) (k : String) :
    alookup (queryFromSearchParams qs) k =
      (((searchParamsPairs qs).map
          (fun kv => ((⟨kv.1⟩ : String), (⟨kv.2⟩ : String)))).reverse.find?
        (fun kv => kv.1 == k)).map (·.2) := by
  have hmap : queryFromSearchParams qs =
      ((searchParamsPairs qs).map
        (fun kv => ((⟨kv.1⟩ : String), (⟨kv.2⟩ : String)))).foldl
        (fun acc kv => assocSet acc kv.1 kv.2) [] := by
    unfold queryFromSearchParams
    rw [List.foldl_map]
  rw [hmap, alookup_foldl_assocSet]
  rcases hfind : (((searchParamsPairs qs).map
      (fun kv => ((⟨kv.1⟩ : String), (⟨kv.2⟩ : String)))).reverse.find?
        (fun kv => kv.1 == k)) with _ | found <;>
    rw [hfind] <;> simp [alookup, List.find?]

/-- A raw request whose content type is outside the four recognized
families, with every body reader succeeding. -/
def octetStreamRaw : RawBody :=
  { contentType := "application/octet-stream",
    jsonResult := some (.str "ok"),
    textResult := some "ok",
    formDataResult := some [] }

/-- C5 counterexample: for a content type in none of the four recognized
families (`application/octet-stream` here) the parser returns `undefined`
— it never reads the raw bytes, contradicting the claimed raw-byte-buffer
fallback. -/
theorem c5_counterexample :
    parseRequestBody octetStreamRaw = JsVal.undefVal ∧
    isBufferVal (parseRequestBody octetStreamRaw) = false := by
  constructor
  · rfl
  · rfl

/-- C5 (amended): body parsing dispatches purely on the Content-Type
header — JSON, urlencoded, multipart and `text/*` behave as claimed and
every reader failure is swallowed to `undefined` — but a content type
outside those four families yields `undefined` (no body), not a raw byte
buffer. -/
theorem c5_body_parsing_dispatch (raw : RawBody) :
    (strIncludes raw.contentType "application/json" = true →
      parseRequestBody raw = raw.jsonResult.getD .undefVal) ∧
    (strIncludes raw.contentType "application/json" = false →
     strIncludes raw.contentType "application/x-www-form-urlencoded" = true →
      parseRequestBody raw =
        (match raw.textResult with
         | some text => urlEncodedRecord text
         | none => .undefVal)) ∧
    (strIncludes raw.contentType "application/json" = false →
     strIncludes raw.contentType "application/x-www-form-urlencoded" = false →
     strIncludes raw.contentType "multipart/form-data" = true →
      parseRequestBody raw =
        (match raw.formDataResult with
         | some fields =>
             JsVal.obj (fields.foldl (fun acc kv => assocSet acc kv.1 kv.2) [])
         | none => .undefVal)) ∧
    (strIncludes raw.contentType "application/json" = false →
     strIncludes raw.contentType "application/x-www-form-urlencoded" = false →
     strIncludes raw.contentType "multipart/form-data" = false →
     strIncludes raw.contentType "text/" = true →
      parseRequestBody raw =
        (match raw.textResult with
         | some text => JsVal.str text
         | none => .undefVal)) ∧
    (strIncludes raw.contentType "application/json" = false →
     strIncludes raw.contentType "application/x-www-form-urlencoded" = false →
     strIncludes raw.contentType "multipart/form-data" = false →
     strIncludes raw.contentType "text/" = false →
      parseRequestBody raw = .undefVal) := by
  refine ⟨?_, ?_, ?_, ?_, ?_⟩
  · intro h1; simp [parseRequestBody, h1]
  · intro h1 h2; simp [parseRequestBody, h1, h2]
  · intro h1 h2 h3; simp [parseRequestBody, h1, h2, h3]
  · intro h1 h2 h3 h4; simp [parseRequestBody, h1, h2, h3, h4]
  · intro h1 h2 h3 h4; simp [parseRequestBody, h1, h2, h3, h4]

/-- A malformed-JSON raw request: `.json()` rejects. -/
def badJsonRaw : RawBody :=
  { contentType := "application/json",
    jsonResult := none,
    textResult := none,
    formDataResult := none }

theorem c5_witness :
    parseRequestBody badJsonRaw = JsVal.undefVal :=
  (c5_body_parsing_dispatch badJsonRaw).1 (by rfl)

/-- Payload projection used by the concrete `onSend` hooks below. -/
def payloadAsString : JsVal → String
  | .str s => s
  | _ => ""

/-- Concrete `onSend` hook appending `" first"` to the current payload. -/
def appendFirstHook : OnSendHook :=
  fun p r => (r, none, some (.str (payloadAsString p ++ " first")))

/-- Concrete `onSend` hook appending `" second"` to the current payload. -/
def appendSecondHook : OnSendHook :=
  fun p r => (r, none, some (.str (payloadAsString p ++ " second")))

/-- Concrete erroring `onSend` hook. -/
def errorOnSendHook : OnSendHook := fun _ r => (r, some "boom", none)

/-- C7: the `onSend` chain threads the payload — an erroring hook stops
the chain reporting the error; a hook that passes no replacement keeps
the previous payload; a replacement becomes the new payload; and the
two-appending-hooks example produces `"original first second"`. -/
theorem c7_onSend_payload_threading :
    (∀ (h : OnSendHook) (hs : List OnSendHook) (reply r' : FastifyReply)
        (p : JsVal) (e : Err) (rep : Option JsVal),
        h p reply = (r', some e, rep) →
        executeOnSend (h :: hs) reply p = (r', some e, p)) ∧
    (∀ (h : OnSendHook) (hs : List OnSendHook) (reply r' : FastifyReply) (p : JsVal),
        h p reply = (r', none, none) →
        executeOnSend (h :: hs) reply p = executeOnSend hs r' p) ∧
    (∀ (h : OnSendHook) (hs : List OnSendHook) (reply r' : FastifyReply) (p q : JsVal),
        h p reply = (r', none, some q) →
        executeOnSend (h :: hs) reply p = executeOnSend hs r' q) ∧
    (executeOnSend [appendFirstHook, appendSecondHook] createFastifyReply
        (.str "original") =
      (createFastifyReply, none, .str "original first second")) := by
  refine ⟨?_, ?_, ?_, ?_⟩
  · intro h hs reply r' p e rep hh
    simp [executeOnSend, hh]
  · intro h hs reply r' p hh
    simp [executeOnSend, hh]
  · intro h hs reply r' p q hh
    simp [executeOnSend, hh]
  · rfl

theorem c7_witness :
    executeOnSend [errorOnSendHook] createFastifyReply (.str "p") =
      (createFastifyReply, some "boom", .str "p") :=
  c7_onSend_payload_threading.1 errorOnSendHook [] createFastifyReply
    createFastifyReply (.str "p") "boom" none rfl

/-- Every successfully initialized plugin run appends exactly the
registered plugin ids, in order, to the run log. -/
theorem initializePlugins_runLog :
    ∀ (ps : List Plugin) (s s' : RegistryState),
      initializePlugins ps s = .ok s' →
      s'.runLog = s.runLog ++ ps.map (·.pid) := by
  intro ps
  induction ps with
  | nil =>
      intro s s' h
      simp only [initializePlugins] at h
      cases h
      simp
  | cons p rest ih =>
      intro s s' h
      simp only [initializePlugins] at h
      rcases hf : p.fails with _ | e
      · rw [hf] at h
        have := ih _ _ h
        simp only [this]
        simp
      · rw [hf] at h
        cases h

/-- C10: when the plugin registry has not been initialized and a first
`listen` succeeds, each registered plugin's initialization function ran
exactly once (the run log grew by exactly the plugin ids, in order), and
a second `listen` is a no-op returning the state unchanged — hooks and
decorator maps included. -/
theorem c10_plugin_init_idempotent (s s₁ : RegistryState)
    (hinit : s.fastifyInitialized = false)
    (h : listen s = .ok s₁) :
    listen s₁ = .ok s₁ ∧ s₁.runLog = s.runLog ++ s.plugins.map (·.pid) := by
  simp only [listen, initializeFastifyPlugins, hinit, Bool.false_eq_true,
    if_false] at h
  rcases hm : initializePlugins s.plugins s with s' | e
  · rw [hm] at h; cases h
  · rw [hm] at h
    cases h
    constructor
    · simp [listen, initializeFastifyPlugins]
    · simpa using initializePlugins_runLog _ _ _ hm

theorem c10_witness :
    listen { plugins := [⟨1, [.decorateE "x" (.num 1)], none⟩], hooks := [],
             decorators := [("x", JsVal.num 1)], requestDecorators := [],
             replyDecorators := [], fastifyInitialized := true, runLog := [1] } =
      .ok { plugins := [⟨1, [.decorateE "x" (.num 1)], none⟩], hooks := [],
            decorators := [("x", JsVal.num 1)], requestDecorators := [],
            replyDecorators := [], fastifyInitialized := true, runLog := [1] } ∧
    ([1] : List Nat) = [] ++ [1] :=
  c10_plugin_init_idempotent
    { plugins := [⟨1, [.decorateE "x" (.num 1)], none⟩], hooks := [],
      decorators := [], requestDecorators := [],
      replyDecorators := [], fastifyInitialized := false, runLog := [] }
    _ rfl rfl

/-- C8: cookie parsing — for any single-pair Cookie header `n=v` with a
nonempty, `=`-free name, the remainder of the pair is rejoined with `=`
as the value, so a value containing `=` characters round-trips unchanged;
and in a multi-cookie header the pieces are split on `;` and trimmed, as
the `"a=1; token=a=b=c"` instance shows. -/
theorem c8_cookie_value_roundtrip :
    (∀ (n v : List Char),
      n ≠ [] →
      '=' ∉ n →
      ';' ∉ n ++ '=' :: v →
      trimChars (n ++ '=' :: v) = n ++ '=' :: v →
      parseCookies (n ++ '=' :: v) = [((⟨n⟩ : String), (⟨v⟩ : String))]) ∧
    parseCookies ("a=1; token=a=b=c".toList) = [("a", "1"), ("token", "a=b=c")] := by
  constructor
  · intro n v hn hne hsem htrim
    unfold parseCookies
    rw [splitOnChar_of_not_mem ';' _ hsem]
    simp only [List.foldl_cons, List.foldl_nil]
    rw [htrim]
    have hsplit : splitOnChar '=' (n ++ '=' :: v) = n :: splitOnChar '=' v := by
      rw [splitOnChar_append_of_not_mem '=' n ('=' :: v) hne, splitOnChar_cons_sep]
      simp
    rw [hsplit]
    have hni : n.isEmpty = false := by
      cases n with
      | nil => exact absurd rfl hn
      | cons c cs => rfl
    simp only [hni, Bool.false_eq_true, if_false]
    rw [joinWithChar_splitOnChar]
    rfl
  · rfl

theorem c8_witness :
    parseCookies ("token".toList ++ '=' :: "a=b=c".toList) = [("token", "a=b=c")] :=
  c8_cookie_value_roundtrip.1 ("token".toList) ("a=b=c".toList)
    (by decide) (by decide) (by decide) (by decide)

/-- Middleware that records having run by setting a header and continuing. -/
def markerMiddleware : MW := fun r => (r.setH "x-mw" "1", .nexted none)

/-- C9 counterexample: `"/api"` is a plain string prefix of `"/apifoo"`,
yet the scope check rejects it and the chain never runs the middleware —
prefix matching is at `/` boundaries, not plain string prefix. -/
theorem c9_counterexample :
    ("/api".toList.isPrefixOf "/apifoo".toList = true) ∧
    pathMatchesMiddleware "/apifoo" "/api" = false ∧
    executeMiddlewareChain "" [⟨"/api", markerMiddleware⟩]
        createExpressResponse "/apifoo" =
      (createExpressResponse, .fellThrough) := by
  refine ⟨by decide, rfl, rfl⟩

/-- C9 (amended): a middleware's scope matches exactly when it is the root
scope (`"/"` or `""`), or the request path equals the slash-normalized
scope, or extends it at a `/` boundary; the chain skips entries whose
scope does not match and otherwise processes entries in order (subject to
the chain's stop conditions); the embedded `startsWith` agrees with
genuine list prefixing. -/
theorem c9_middleware_scope_matching :
    (∀ q p, pathMatchesMiddleware q p = true ↔
      (p = "/" ∨ p = "" ∨
        (q = (if strStartsWith p "/" then p else "/" ++ p) ∨
         strStartsWith q ((if strStartsWith p "/" then p else "/" ++ p) ++ "/") = true))) ∧
    (∀ (gp : String) (entry : MiddlewareEntry) (rest : List MiddlewareEntry)
        (res : ExpressRes) (q : String),
      pathMatchesMiddleware q (buildPath gp entry.path) = false →
      executeMiddlewareChain gp (entry :: rest) res q =
        executeMiddlewareChain gp rest res q) ∧
    (∀ (p s : List Char), hasPrefixL p s = true ↔ p <+: s) := by
  refine ⟨?_, ?_, ?_⟩
  · intro q p
    by_cases hp : p = "/" ∨ p = ""
    · constructor
      · intro _
        rcases hp with h | h
        · exact Or.inl h
        · exact Or.inr (Or.inl h)
      · intro _
        simp [pathMatchesMiddleware, hp]
    · simp only [pathMatchesMiddleware, hp, if_false]
      constructor
      · intro h
        rcases Bool.or_eq_true _ _ |>.mp h with h1 | h2
        · exact Or.inr (Or.inr (Or.inl (by simpa using h1)))
        · exact Or.inr (Or.inr (Or.inr h2))
      · intro h
        rcases h with h1 | h1 | h1 | h1
        · exact absurd (Or.inl h1) hp
        · exact absurd (Or.inr h1) hp
        · exact Bool.or_eq_true _ _ |>.mpr (Or.inl (by simpa using h1))
        · exact Bool.or_eq_true _ _ |>.mpr (Or.inr h1)
  · intro gp entry rest res q h
    cases entry with
    | mk path handler => simp [executeMiddlewareChain, h]
  · intro p s
    induction p generalizing s with
    | nil => simp [hasPrefixL]
    | cons c cs ih =>
        cases s with
        | nil => simp [hasPrefixL]
        | cons d ds => simp [hasPrefixL, List.cons_prefix_cons, ih]

theorem c9_witness :
    executeMiddlewareChain "" [⟨"/api", markerMiddleware⟩]
        createExpressResponse "/apifoo" =
      executeMiddlewareChain "" [] createExpressResponse "/apifoo" :=
  c9_middleware_scope_matching.2.1 "" ⟨"/api", markerMiddleware⟩ []
    createExpressResponse "/apifoo" (by rfl)

/-- The claim's example route, `GET /orgs/:orgId/users/:userId`. -/
def orgsUsersRoute : Route Unit :=
  { method := "GET",
    toks := (pathToRegex "/orgs/:orgId/users/:userId").1,
    paramNames := (pathToRegex "/orgs/:orgId/users/:userId").2,
    handler := () }

/-- C6: route matching scans the registered routes in order and returns
the first entry whose method matches (equal or the wildcard `ALL`) and
whose compiled pattern matches the full path, every earlier entry having
failed to match; it reports no match exactly when no entry matches; and
parameters bind positionally, as on the `/orgs/o1/users/u2` example. -/
theorem c6_route_matching :
    (∀ (H : Type) (routes : List (Route H)) (m p : String) (r : Route H)
        (params : List (String × String)),
      findRoute routes m p = some (r, params) →
      ∃ pre post, routes = pre ++ r :: post ∧
        routeMatch m p r = some params ∧
        ∀ r' ∈ pre, routeMatch m p r' = none) ∧
    (∀ (H : Type) (routes : List (Route H)) (m p : String),
      findRoute routes m p = none ↔ ∀ r ∈ routes, routeMatch m p r = none) ∧
    (findRoute [orgsUsersRoute] "GET" "/orgs/o1/users/u2" =
      some (orgsUsersRoute, [("orgId", "o1"), ("userId", "u2")])) := by
  refine ⟨?_, ?_, ?_⟩
  · intro H routes m p r params h
    induction routes with
    | nil => simp [findRoute] at h
    | cons r0 rest ih =>
        simp only [findRoute] at h
        rcases hm : routeMatch m p r0 with _ | params0
        · rw [hm] at h
          obtain ⟨pre, post, heq, hmr, hpre⟩ := ih h
          refine ⟨r0 :: pre, post, by simp [heq], hmr, ?_⟩
          intro r' hr'
          rcases List.mem_cons.mp hr' with h1 | h1
          · rw [h1]; exact hm
          · exact hpre r' h1
        · rw [hm] at h
          have h1 : r0 = r ∧ params0 = params := by
            have := Option.some.inj h
            exact ⟨congrArg Prod.fst this, congrArg Prod.snd this⟩
          refine ⟨[], rest, by simp [h1.1], ?_, by simp⟩
          rw [← h1.1, hm, h1.2]
  · intro H routes m p
    induction routes with
    | nil => simp [findRoute]
    | cons r0 rest ih =>
        simp only [findRoute]
        rcases hm : routeMatch m p r0 with _ | params0
        · simp only [List.mem_cons]
          constructor
          · intro h r' hr'
            rcases hr' with h1 | h1
            · rw [h1]; exact hm
            · exact (ih.mp h) r' h1
          · intro h
            exact ih.mpr (fun r' hr' => h r' (Or.inr hr'))
        · constructor
          · intro h; cases h
          · intro h
            have := h r0 (List.mem_cons_self r0 rest)
            rw [hm] at this
            cases this
  · rfl

theorem c6_witness :
    ∃ pre post, [orgsUsersRoute] = pre ++ orgsUsersRoute :: post ∧
      routeMatch "GET" "/orgs/o1/users/u2" orgsUsersRoute =
        some [("orgId", "o1"), ("userId", "u2")] ∧
      ∀ r' ∈ pre, routeMatch "GET" "/orgs/o1/users/u2" r' = none :=
  c6_route_matching.1 Unit [orgsUsersRoute] "GET" "/orgs/o1/users/u2"
    orgsUsersRoute [("orgId", "o1"), ("userId", "u2")] (by rfl)

/-- Express middleware that forwards an error through `next`. -/
def nextErrorMiddleware : MW := fun r => (r, .nexted (some "boom"))

/-- Fastify `onError` hook that replies and reports the error handled. -/
def handlingOnErrorHook : OnErrorHook :=
  fun _ r => (r.send (some (.str "handled by hook")), true)

/-- Adapter with one erroring middleware and one handling `onError` hook,
and nothing else registered. -/
def c2Adapter : Adapter :=
  { globalPrefix := "",
    routes := [],
    middlewares := [⟨"/", nextErrorMiddleware⟩],
    errorMiddlewares := [],
    onRequestHooks := [],
    preHandlerHooks := [],
    onSendHooks := [],
    onErrorHooks := [handlingOnErrorHook],
    onResponseHooks := [],
    errorHandler := none,
    notFoundHandler := none }

/-- C2 counterexample: a middleware error with a registered Fastify
`onError` hook that would handle it — the dispatcher never consults the
hook (no `onError` phase in the log) and falls straight to the default
JSON 500, contradicting the claimed (a)→(b)→(c)→(d) recovery order for
"every error produced by any phase". -/
theorem c2_counterexample :
    (handleRequest c2Adapter "GET" "/x").log =
      [.onRequestP, .middlewareP, .errMwP] ∧
    Phase.onErrorP ∉ (handleRequest c2Adapter "GET" "/x").log ∧
    (handleRequest c2Adapter "GET" "/x").response.status = 500 ∧
    (handleRequest c2Adapter "GET" "/x").response ≠
      (FastifyReply.send (some (.str "handled by hook"))
        createFastifyReply).buildResponse := by
  refine ⟨rfl, by decide, rfl, by decide⟩

/-- C2 (amended): the recovery order depends on the phase that errored.
An Express middleware error triggers the error-middleware chain and then
the global handler or the default 500 — the `onError` hooks are never
consulted. An `onRequest` (or `preHandler`) hook error consults only the
`onError` hooks, then a Fastify-side default 500 — neither the
error-middleware chain nor the global handler runs. Only route-handler
errors follow the full ladder: (a) error middleware (a throwing handler
counts as not handling and the chain moves on), then (b) `onError`
hooks, then (c) the global handler, then (d) the default JSON 500. -/
theorem c2_error_recovery_order :
    (∀ (a : Adapter) (m p : String) (reply1 : FastifyReply) (res1 : ExpressRes)
        (e : Err),
      executePhaseHooks a.onRequestHooks createFastifyReply = (reply1, none) →
      reply1.sent = false →
      executeMiddlewareChain a.globalPrefix a.middlewares createExpressResponse p =
        (res1, .mwError e) →
      Phase.onErrorP ∉ (handleRequest a m p).log ∧
        Phase.errMwP ∈ (handleRequest a m p).log) ∧
    (∀ (a : Adapter) (m p : String) (reply1 : FastifyReply)
        (res1 res2 : ExpressRes) (e : Err),
      executePhaseHooks a.onRequestHooks createFastifyReply = (reply1, none) →
      reply1.sent = false →
      executeMiddlewareChain a.globalPrefix a.middlewares createExpressResponse p =
        (res1, .mwError e) →
      executeErrorMiddlewareChain a.globalPrefix a.errorMiddlewares e res1 p =
        (res2, false) →
      a.errorHandler = none →
      (handleRequest a m p).response =
        ((res2.status 500).json (defaultErrorBody e)).buildResponse) ∧
    (∀ (a : Adapter) (m p : String) (reply1 : FastifyReply) (e : Err),
      executePhaseHooks a.onRequestHooks createFastifyReply = (reply1, some e) →
      handleRequest a m p = hookErrorExit a e reply1 [.onRequestP] ∧
        Phase.errMwP ∉ (handleRequest a m p).log ∧
        Phase.errHandlerP ∉ (handleRequest a m p).log) ∧
    (∀ (a : Adapter) (m p : String) (reply1 reply2 : FastifyReply)
        (res1 res2 : ExpressRes) (route : Route Handler)
        (params : List (String × String)) (e : Err),
      executePhaseHooks a.onRequestHooks createFastifyReply = (reply1, none) →
      reply1.sent = false →
      executeMiddlewareChain a.globalPrefix a.middlewares createExpressResponse p =
        (res1, .fellThrough) →
      res1.ended = false →
      executePhaseHooks a.preHandlerHooks reply1 = (reply2, none) →
      reply2.sent = false →
      findRoute a.routes m p = some (route, params) →
      route.handler res1 = (res2, .threw e) →
      handleRequest a m p =
        ⟨(handlerErrorRecovery a p e res2 reply2).response,
         [.onRequestP, .middlewareP, .preHandlerP, .handlerP] ++
           (handlerErrorRecovery a p e res2 reply2).log⟩) ∧
    (∀ (a : Adapter) (p : String) (e : Err) (res res1 : ExpressRes)
        (reply : FastifyReply),
      executeErrorMiddlewareChain a.globalPrefix a.errorMiddlewares e res p =
        (res1, true) →
      handlerErrorRecovery a p e res reply = ⟨res1.buildResponse, [.errMwP]⟩) ∧
    (∀ (a : Adapter) (p : String) (e : Err) (res res1 : ExpressRes)
        (reply reply1 : FastifyReply),
      executeErrorMiddlewareChain a.globalPrefix a.errorMiddlewares e res p =
        (res1, false) →
      executeOnError a.onErrorHooks reply e = (reply1, true) →
      handlerErrorRecovery a p e res reply =
        ⟨reply1.buildResponse, [.errMwP, .onErrorP]⟩) ∧
    (∀ (a : Adapter) (p : String) (e : Err) (res res1 : ExpressRes)
        (reply reply1 : FastifyReply)
        (h : Err → ExpressRes → ExpressRes),
      executeErrorMiddlewareChain a.globalPrefix a.errorMiddlewares e res p =
        (res1, false) →
      executeOnError a.onErrorHooks reply e = (reply1, false) →
      a.errorHandler = some h →
      handlerErrorRecovery a p e res reply =
        ⟨(h e res1).buildResponse, [.errMwP, .onErrorP, .errHandlerP]⟩) ∧
    (∀ (a : Adapter) (p : String) (e : Err) (res res1 : ExpressRes)
        (reply reply1 : FastifyReply),
      executeErrorMiddlewareChain a.globalPrefix a.errorMiddlewares e res p =
        (res1, false) →
      executeOnError a.onErrorHooks reply e = (reply1, false) →
      a.errorHandler = none →
      handlerErrorRecovery a p e res reply =
        ⟨((res1.status 500).json (defaultErrorBody e)).buildResponse,
         [.errMwP, .onErrorP]⟩) ∧
    (∀ (gp : String) (entry : ErrorMiddlewareEntry)
        (rest : List ErrorMiddlewareEntry) (e e2 : Err)
        (res res' : ExpressRes) (p : String),
      pathMatchesMiddleware p (buildPath gp entry.path) = true →
      entry.handler e res = (res', .threw e2) →
      executeErrorMiddlewareChain gp (entry :: rest) e res p =
        executeErrorMiddlewareChain gp rest e res' p) := by
  refine ⟨?_, ?_, ?_, ?_, ?_, ?_, ?_, ?_, ?_⟩
  · intro a m p reply1 res1 e h1 h2 h3
    simp only [handleRequest, h1, h2, h3, Bool.false_eq_true, if_false]
    rcases hm2 : executeErrorMiddlewareChain a.globalPrefix a.errorMiddlewares e res1 p
      with ⟨res2, handled⟩
    cases handled
    · rcases heh : a.errorHandler with _ | h
      · simp [heh]
      · simp [heh]
    · simp
  · intro a m p reply1 res1 res2 e h1 h2 h3 h4 h5
    simp only [handleRequest, h1, h2, h3, h4, h5, Bool.false_eq_true, if_false]
  · intro a m p reply1 e h1
    refine ⟨by simp only [handleRequest, h1], ?_, ?_⟩ <;>
    · simp only [handleRequest, h1, hookErrorExit]
      rcases executeOnError a.onErrorHooks reply1 e with ⟨reply2, handled⟩
      cases handled <;> simp
  · intro a m p reply1 reply2 res1 res2 route params e h1 h2 h3 h4 h5 h6 h7 h8
    simp only [handleRequest, h1, h2, h3, h4, h5, h6, h7, h8,
      Bool.false_eq_true, if_false]
  · intro a p e res res1 reply h1
    simp only [handlerErrorRecovery, h1]
  · intro a p e res res1 reply reply1 h1 h2
    simp only [handlerErrorRecovery, h1, h2]
  · intro a p e res res1 reply reply1 h h1 h2 h3
    simp only [handlerErrorRecovery, h1, h2, h3]
  · intro a p e res res1 reply reply1 h1 h2 h3
    simp only [handlerErrorRecovery, h1, h2, h3]
  · intro gp entry rest e e2 res res' p h1 h2
    cases entry with
    | mk path handler => simp only [executeErrorMiddlewareChain, h1, h2] at *; simp [h1, h2]

theorem c2_witness :
    (handleRequest c2Adapter "GET" "/x").response =
      ((createExpressResponse.status 500).json
        (defaultErrorBody "boom")).buildResponse :=
  c2_error_recovery_order.2.1 c2Adapter "GET" "/x" createFastifyReply
    createExpressResponse createExpressResponse "boom" rfl rfl rfl rfl rfl

/-- `onResponse` hook that records having run by setting a header. -/
def markerOnResponseHook : RHook := fun r => (r.header "x-ran" "1", none)

/-- Adapter with one `onResponse` hook and nothing else registered. -/
def c3Adapter : Adapter :=
  { globalPrefix := "",
    routes := [],
    middlewares := [],
    errorMiddlewares := [],
    onRequestHooks := [],
    preHandlerHooks := [],
    onSendHooks := [],
    onErrorHooks := [],
    onResponseHooks := [markerOnResponseHook],
    errorHandler := none,
    notFoundHandler := none }

/-- C3 counterexample: on the default not-found path the registered
`onResponse` hook is never executed before the 404 response is returned,
contradicting the claim that the hooks run on every path. -/
theorem c3_counterexample :
    (handleRequest c3Adapter "GET" "/missing").log =
      [.onRequestP, .middlewareP, .preHandlerP] ∧
    Phase.onResponseP ∉ (handleRequest c3Adapter "GET" "/missing").log ∧
    (handleRequest c3Adapter "GET" "/missing").response.status = 404 := by
  refine ⟨rfl, by decide, rfl⟩

theorem hookErrorExit_response_congr (a b : Adapter) (e : Err)
    (r : FastifyReply) (l : List Phase)
    (h : a.onErrorHooks = b.onErrorHooks) :
    hookErrorExit a e r l = hookErrorExit b e r l := by
  simp only [hookErrorExit, h]

theorem handlerErrorRecovery_congr (a b : Adapter) (p : String) (e : Err)
    (res : ExpressRes) (reply : FastifyReply)
    (h1 : a.globalPrefix = b.globalPrefix)
    (h2 : a.errorMiddlewares = b.errorMiddlewares)
    (h3 : a.onErrorHooks = b.onErrorHooks)
    (h4 : a.errorHandler = b.errorHandler) :
    handlerErrorRecovery a p e res reply = handlerErrorRecovery b p e res reply := by
  simp only [handlerErrorRecovery, h1, h2, h3, h4]

theorem handlerSuccessTail_congr (a b : Adapter) (res : ExpressRes)
    (reply : FastifyReply) (ret : HandlerRet)
    (h1 : a.onSendHooks = b.onSendHooks)
    (h2 : a.onErrorHooks = b.onErrorHooks) :
    handlerSuccessTail a res reply ret = handlerSuccessTail b res reply ret := by
  simp only [handlerSuccessTail, h1, h2]

/-- C3 (amended): the `onResponse` hooks run before the final response
only on the matched-route paths on which the handler completes without an
error; the default not-found path (and the other short-circuit and error
exits) skips them. Where they do run they cannot affect delivery: the
response of a dispatch never depends on the registered `onResponse` hooks
at all, so an `onResponse` hook that errors never blocks or alters the
response. -/
theorem c3_onResponse_selective :
    (∀ (a : Adapter) (m p : String) (reply1 reply2 : FastifyReply)
        (res1 res2 : ExpressRes) (route : Route Handler)
        (params : List (String × String)) (ret : HandlerRet),
      executePhaseHooks a.onRequestHooks createFastifyReply = (reply1, none) →
      reply1.sent = false →
      executeMiddlewareChain a.globalPrefix a.middlewares createExpressResponse p =
        (res1, .fellThrough) →
      res1.ended = false →
      executePhaseHooks a.preHandlerHooks reply1 = (reply2, none) →
      reply2.sent = false →
      findRoute a.routes m p = some (route, params) →
      route.handler res1 = (res2, .ok none ret) →
      a.onSendHooks = [] →
      Phase.onResponseP ∈ (handleRequest a m p).log) ∧
    (∀ (a : Adapter) (m p : String) (reply1 reply2 : FastifyReply)
        (res1 : ExpressRes),
      executePhaseHooks a.onRequestHooks createFastifyReply = (reply1, none) →
      reply1.sent = false →
      executeMiddlewareChain a.globalPrefix a.middlewares createExpressResponse p =
        (res1, .fellThrough) →
      res1.ended = false →
      executePhaseHooks a.preHandlerHooks reply1 = (reply2, none) →
      reply2.sent = false →
      findRoute a.routes m p = none →
      a.notFoundHandler = none →
      Phase.onResponseP ∉ (handleRequest a m p).log) ∧
    (∀ (a : Adapter) (hs : List RHook) (m p : String),
      (handleRequest { a with onResponseHooks := hs } m p).response =
        (handleRequest { a with onResponseHooks := [] } m p).response) := by
  refine ⟨?_, ?_, ?_⟩
  · intro a m p reply1 reply2 res1 res2 route params ret h1 h2 h3 h4 h5 h6 h7 h8 h9
    simp only [handleRequest, h1, h2, h3, h4, h5, h6, h7, h8,
      Bool.false_eq_true, if_false]
    rcases ret with _ | v | resp <;>
      rcases hres : res2.ended with _ | _ <;>
      simp [handlerSuccessTail, h9, executeOnSend, hres]
  · intro a m p reply1 reply2 res1 h1 h2 h3 h4 h5 h6 h7 h8
    simp only [handleRequest, h1, h2, h3, h4, h5, h6, h7, h8,
      Bool.false_eq_true, if_false]
    decide
  · intro a hs m p
    cases a with
    | mk gp routes mws emws onReq preH onSend onErr onResp eh nfh =>
    simp only [handleRequest]
    rcases h1 : executePhaseHooks onReq createFastifyReply with ⟨reply1, _ | e⟩
    · simp only [h1]
      rcases h2 : reply1.sent with _ | _
      · simp only [h2, Bool.false_eq_true, if_false]
        rcases h3 : executeMiddlewareChain gp mws createExpressResponse p
          with ⟨res1, e | _ | _⟩
        · simp only [h3]
        · simp only [h3]
        · simp only [h3]
          rcases h4 : res1.ended with _ | _
          · simp only [h4, Bool.false_eq_true, if_false]
            rcases h5 : executePhaseHooks preH reply1 with ⟨reply2, _ | e⟩
            · simp only [h5]
              rcases h6 : reply2.sent with _ | _
              · simp only [h6, Bool.false_eq_true, if_false]
                rcases h7 : findRoute routes m p with _ | ⟨route, params⟩
                · simp only [h7]
                · simp only [h7]
                  rcases h8 : route.handler res1 with ⟨res2, e | ⟨_ | e, ret⟩⟩
                  · simp only [h8]
                    rw [handlerErrorRecovery_congr
                      ⟨gp, routes, mws, emws, onReq, preH, onSend, onErr, hs, eh, nfh⟩
                      ⟨gp, routes, mws, emws, onReq, preH, onSend, onErr, [], eh, nfh⟩
                      p e res2 reply2 rfl rfl rfl rfl]
                  · simp only [h8]
                    rw [handlerSuccessTail_congr
                      ⟨gp, routes, mws, emws, onReq, preH, onSend, onErr, hs, eh, nfh⟩
                      ⟨gp, routes, mws, emws, onReq, preH, onSend, onErr, [], eh, nfh⟩
                      res2 reply2 ret rfl rfl]
                  · simp only [h8]
                    rw [handlerErrorRecovery_congr
                      ⟨gp, routes, mws, emws, onReq, preH, onSend, onErr, hs, eh, nfh⟩
                      ⟨gp, routes, mws, emws, onReq, preH, onSend, onErr, [], eh, nfh⟩
                      p e res2 reply2 rfl rfl rfl rfl]
              · simp [h6]
            · simp only [h5]
              rw [hookErrorExit_response_congr
                ⟨gp, routes, mws, emws, onReq, preH, onSend, onErr, hs, eh, nfh⟩
                ⟨gp, routes, mws, emws, onReq, preH, onSend, onErr, [], eh, nfh⟩
                e reply2 _ rfl]
          · simp [h4]
      · simp [h2]
    · simp only [h1]
      rw [hookErrorExit_response_congr
        ⟨gp, routes, mws, emws, onReq, preH, onSend, onErr, hs, eh, nfh⟩
        ⟨gp, routes, mws, emws, onReq, preH, onSend, onErr, [], eh, nfh⟩
        e reply1 _ rfl]

/-- A `GET /hello` route whose handler sends `"hi"`. -/
def helloRoute : Route Handler :=
  { method := "GET",
    toks := (pathToRegex "/hello").1,
    paramNames := (pathToRegex "/hello").2,
    handler := fun r => (r.send (.str "hi"), .ok none .hundef) }

/-- Adapter with the hello route and one `onResponse` hook. -/
def c3OkAdapter : Adapter :=
  { globalPrefix := "",
    routes := [helloRoute],
    middlewares := [],
    errorMiddlewares := [],
    onRequestHooks := [],
    preHandlerHooks := [],
    onSendHooks := [],
    onErrorHooks := [],
    onResponseHooks := [markerOnResponseHook],
    errorHandler := none,
    notFoundHandler := none }

theorem c3_witness :
    Phase.onResponseP ∈ (handleRequest c3OkAdapter "GET" "/hello").log :=
  c3_onResponse_selective.1 c3OkAdapter "GET" "/hello" createFastifyReply
    createFastifyReply createExpressResponse
    (createExpressResponse.send (.str "hi")) helloRoute [] .hundef
    rfl rfl rfl rfl rfl rfl rfl rfl rfl

end BunAdapter
